import Mathlib

/-!
Shallow embedding of the FlipMarket authentication backend (src/index.js,
final server variant: routes /signup, /login, /google-signin,
/forgot-password, /reset-password) together with the MySQL `users` table
it manipulates.  Pure functions model each route handler; the database is
a list of user records, with the storage layer's uniqueness constraint on
`email` modelled in the insert operation.  Time is a natural number of
milliseconds; the bcrypt and jsonwebtoken collaborators are modelled at
their interface boundary.
-/

namespace NotesAuth

/-- Payload signed into a JWT by this server: `jwt.sign({ id, email }, ...)`
for login sessions (id present) and `jwt.sign({ email }, ...)` for
google-signin sessions and reset tokens (id absent). -/
structure JwtClaims where
  id : Option Nat
  email : String
deriving DecidableEq

/-- Interface model of a token produced by `jwt.sign(claims, secret, {expiresIn})`:
the claims, the absolute expiry instant (ms), and the signing secret. -/
structure Jwt where
  claims : JwtClaims
  exp : Nat
  secret : String
deriving DecidableEq

/-- `jwt.sign(claims, secret, { expiresIn: ttl })` at a given current time. -/
def jwtSign (c : JwtClaims) (secret : String) (exp : Nat) : Jwt :=
  ⟨c, exp, secret⟩

/-- `jwt.verify(token, secret)`: yields the claims when the signature
matches the server secret and the token has not expired; otherwise fails
(the route's catch block collapses both failures into one). -/
def jwtVerify (t : Jwt) (secret : String) (now : Nat) : Option JwtClaims :=
  if t.secret = secret ∧ now < t.exp then some t.claims else none

/-- Interface model of `bcrypt.hash(plain, 10)`: an injective one-way digest. -/
def bcryptHash (plain : String) : String :=
  "$2b$10$" ++ plain

/-- Interface model of `bcrypt.compare(plain, hash)`.  A `NULL` stored hash
(federated account that never set a password) is modelled as a mismatch;
no route compares a password on such a record before other guards fire. -/
def bcryptCompare (plain : String) (hash : Option String) : Bool :=
  match hash with
  | some h => bcryptHash plain == h
  | none => false

/-- One row of the `users` table (src/index.js lines 229-244). -/
structure UserRecord where
  id : Nat
  name : String
  email : String
  password : Option String
  is_google : Bool
  reset_token : Option Jwt
  token_expires : Option Nat
  created_at : Nat
deriving DecidableEq

/-- The `users` table, in insertion order. -/
abbrev Db := List UserRecord

/-- `SELECT * FROM users WHERE email = ?` followed by `results[0]`. -/
def findByEmail (db : Db) (email : String) : Option UserRecord :=
  List.find? (fun r => r.email == email) db

/-- `INSERT INTO users ...` under the table's `UNIQUE` constraint on
`email`: `none` models the duplicate-key error MySQL raises when a row
with that email already exists. -/
def insertUser (db : Db) (u : UserRecord) : Option Db :=
  if db.any (fun r => r.email == u.email) then none else some (db ++ [u])

/-- `UPDATE users SET ... WHERE ...`: apply `f` to every row satisfying `q`. -/
def updateWhere (q : UserRecord → Bool) (f : UserRecord → UserRecord) (db : Db) : Db :=
  db.map (fun r => if q r then f r else r)

/-- `result.affectedRows` of an `UPDATE ... WHERE q`: the number of rows matched. -/
def affectedRows (q : UserRecord → Bool) (db : Db) : Nat :=
  db.countP q

/-- `validator.isAlpha`: nonempty and every character a letter. -/
def isAlphaStr (s : String) : Bool :=
  s.length > 0 && s.data.all Char.isAlpha

/-- `name.replace(/\s/g, "")`: drop every whitespace character. -/
def stripSpaces (s : String) : String :=
  String.mk (s.data.filter (fun c => !c.isWhitespace))

/-- Split a character list at every occurrence of `c` (always returns at
least one piece, like the separators of an address). -/
def splitOnChar (c : Char) : List Char → List (List Char)
  | [] => [[]]
  | x :: xs =>
    match splitOnChar c xs with
    | [] => if x == c then [[], []] else [[x]]
    | y :: ys => if x == c then [] :: y :: ys else (x :: y) :: ys

/-- Modelled at the interface boundary of the external `validator`
library: `validator.isEmail` accepts `local@domain` with nonempty local
part, a domain of at least two nonempty dot-separated labels, and no
whitespace. -/
def isEmail (s : String) : Bool :=
  match splitOnChar '@' s.data with
  | [localPart, domain] =>
      localPart.length > 0 &&
      decide ((splitOnChar '.' domain).length ≥ 2) &&
      (splitOnChar '.' domain).all (fun p => p.length > 0) &&
      s.data.all (fun c => !c.isWhitespace)
  | _ => false

def oneHourMs : Nat := 3600000
def sevenDaysMs : Nat := 7 * 24 * 60 * 60 * 1000

/-- Outcome of `POST /signup` (src/index.js lines 267-306). -/
inductive SignupResult where
  | missingFields
  | invalidName
  | invalidEmail
  | shortPassword
  | duplicate
  | insertFailed
  | success
deriving DecidableEq

/-- HTTP status the route sends for each signup outcome. -/
def SignupResult.status : SignupResult → Nat
  | .missingFields => 400
  | .invalidName => 400
  | .invalidEmail => 400
  | .shortPassword => 400
  | .duplicate => 409
  | .insertFailed => 500
  | .success => 200

/-- The outcome is one of the local input-validation rejections
(HTTP 400, produced before any database query is issued). -/
def SignupResult.isValidation : SignupResult → Bool
  | .missingFields => true
  | .invalidName => true
  | .invalidEmail => true
  | .shortPassword => true
  | _ => false

/-- `POST /signup`, with the database state the existence `SELECT` sees
(`dbCheck`) separated from the state the `INSERT` runs against
(`dbInsert`), so that the race window between the two queries is
expressible; the sequential case is `signup` below.  Absent request
fields are modelled as the empty string (JS falsiness). -/
def signupWith (dbCheck dbInsert : Db) (name email password : String)
    (newId now : Nat) : SignupResult × Db :=
  if name = "" ∨ email = "" ∨ password = "" then (.missingFields, dbInsert)
  else if !isAlphaStr (stripSpaces name) then (.invalidName, dbInsert)
  else if !isEmail email then (.invalidEmail, dbInsert)
  else if password.length < 6 then (.shortPassword, dbInsert)
  else if (findByEmail dbCheck email).isSome then (.duplicate, dbInsert)
  else
    match insertUser dbInsert
        ⟨newId, name, email, some (bcryptHash password), false, none, none, now⟩ with
    | some db' => (.success, db')
    | none => (.insertFailed, dbInsert)

/-- `POST /signup` with no interleaved writer between its two queries. -/
def signup (db : Db) (name email password : String) (newId now : Nat) :
    SignupResult × Db :=
  signupWith db db name email password newId now

/-- Outcome of `POST /login` (src/index.js lines 309-340).  The success
payload carries the signed session token and the JSON `user` object as a
field list. -/
inductive LoginResult where
  | userNotFound
  | federatedOnly
  | invalidPassword
  | success (token : Jwt) (user : List (String × String))
deriving DecidableEq

/-- HTTP status the route sends for each login outcome. -/
def LoginResult.status : LoginResult → Nat
  | .userNotFound => 401
  | .federatedOnly => 403
  | .invalidPassword => 401
  | .success _ _ => 200

/-- `POST /login`. -/
def login (db : Db) (email password secret : String) (now : Nat) : LoginResult :=
  match findByEmail db email with
  | none => .userNotFound
  | some user =>
    if user.is_google then .federatedOnly
    else if !bcryptCompare password user.password then .invalidPassword
    else
      .success (jwtSign ⟨some user.id, user.email⟩ secret (now + sevenDaysMs))
        [("name", user.name), ("email", user.email)]

/-- Outcome of `POST /google-signin` (src/index.js lines 344-393). -/
inductive GoogleResult where
  | missingFields
  | insertFailed
  | created (token : Jwt) (user : List (String × String))
  | updated (token : Jwt) (user : List (String × String))
deriving DecidableEq

/-- `POST /google-signin`. -/
def googleSignin (db : Db) (name email secret : String) (newId now : Nat) :
    GoogleResult × Db :=
  if name = "" ∨ email = "" then (.missingFields, db)
  else
    match findByEmail db email with
    | none =>
        match insertUser db ⟨newId, name, email, none, true, none, none, now⟩ with
        | some db' =>
            (.created (jwtSign ⟨none, email⟩ secret (now + sevenDaysMs))
              [("name", name), ("email", email)], db')
        | none => (.insertFailed, db)
    | some _ =>
        (.updated (jwtSign ⟨none, email⟩ secret (now + sevenDaysMs))
            [("name", name), ("email", email)],
         updateWhere (fun r => r.email == email)
           (fun r => { r with name := name, is_google := true }) db)

/-- Outcome of `POST /forgot-password` (src/index.js lines 396-427). -/
inductive ForgotResult where
  | invalidEmail
  | userNotFound
  | emailFailed
  | sent
deriving DecidableEq

/-- HTTP status the route sends for each forgot-password outcome. -/
def ForgotResult.status : ForgotResult → Nat
  | .invalidEmail => 400
  | .userNotFound => 404
  | .emailFailed => 500
  | .sent => 200

/-- `POST /forgot-password`.  `mailOk` is the outcome of the single
`transporter.sendMail` attempt, which runs only after the `UPDATE`
persisted the token. -/
def forgotPassword (db : Db) (email secret : String) (now : Nat) (mailOk : Bool) :
    ForgotResult × Db :=
  if !isEmail email then (.invalidEmail, db)
  else if affectedRows (fun r => r.email == email) db = 0 then (.userNotFound, db)
  else if !mailOk then
    (.emailFailed, updateWhere (fun r => r.email == email)
      (fun r => { r with
        reset_token := some (jwtSign ⟨none, email⟩ secret (now + oneHourMs)),
        token_expires := some (now + oneHourMs) }) db)
  else
    (.sent, updateWhere (fun r => r.email == email)
      (fun r => { r with
        reset_token := some (jwtSign ⟨none, email⟩ secret (now + oneHourMs)),
        token_expires := some (now + oneHourMs) }) db)

/-- Outcome of `POST /reset-password` (src/index.js lines 430-453). -/
inductive ResetResult where
  | missingFields
  | invalidOrExpired
  | success
deriving DecidableEq

/-- HTTP status the route sends for each reset-password outcome. -/
def ResetResult.status : ResetResult → Nat
  | .missingFields => 400
  | .invalidOrExpired => 400
  | .success => 200

/-- `POST /reset-password`.  A missing `token` field is `none`; a missing
`newPassword` is the empty string.  The `UPDATE` is conditioned on
`email = ? AND reset_token = ?`, and `affectedRows === 0` reports the
collapsed invalid-or-expired error. -/
def resetPassword (db : Db) (token : Option Jwt) (newPassword secret : String)
    (now : Nat) : ResetResult × Db :=
  match token with
  | none => (.missingFields, db)
  | some tok =>
    if newPassword = "" then (.missingFields, db)
    else
      match jwtVerify tok secret now with
      | none => (.invalidOrExpired, db)
      | some decoded =>
        if affectedRows
            (fun r => r.email == decoded.email && r.reset_token == some tok) db = 0 then
          (.invalidOrExpired, db)
        else
          (.success,
           updateWhere (fun r => r.email == decoded.email && r.reset_token == some tok)
             (fun r => { r with password := some (bcryptHash newPassword),
                                reset_token := none, token_expires := none }) db)

/-! ### Helper lemmas about the storage model -/

/-- A record found by email satisfies the email predicate. -/
theorem email_of_findByEmail {db : Db} {e : String} {u : UserRecord}
    (h : findByEmail db e = some u) : u.email = e := by
  have := List.find?_some h
  simpa using this

/-- `UPDATE ... WHERE q` commutes with lookup by email whenever the
update does not change the email column. -/
theorem findByEmail_updateWhere (q : UserRecord → Bool) (f : UserRecord → UserRecord)
    (hf : ∀ r, q r = true → (f r).email = r.email) (db : Db) (e : String) :
    findByEmail (updateWhere q f db) e
      = (findByEmail db e).map (fun r => if q r then f r else r) := by
  induction db with
  | nil => rfl
  | cons r rest ih =>
    unfold updateWhere findByEmail at *
    simp only [List.map_cons, List.find?]
    by_cases hq : q r = true
    · rw [if_pos hq]
      have he : (f r).email = r.email := hf r hq
      by_cases hm : r.email == e
      · simp [he, hm, hq]
      · simp only [he, hm]
        simpa [hq] using ih
    · rw [if_neg hq]
      by_cases hm : r.email == e
      · simp [hm, hq]
      · simp only [hm]
        simpa [hq] using ih

/-- After an `UPDATE ... WHERE q` whose effect falsifies `p` on every
updated row, and with `p` implying `q` on untouched rows, no row
satisfies `p`. -/
theorem countP_updateWhere_zero (p q : UserRecord → Bool) (f : UserRecord → UserRecord)
    (db : Db) (h1 : ∀ r, q r = false → p r = false)
    (h2 : ∀ r, q r = true → p (f r) = false) :
    (updateWhere q f db).countP p = 0 := by
  induction db with
  | nil => rfl
  | cons r rest ih =>
    unfold updateWhere at *
    simp only [List.map_cons, List.countP_cons]
    by_cases hq : q r = true
    · simp [hq, h2 r hq, ih]
    · have hp := h1 r (by simpa using hq)
      simp [hq, hp, ih]

/-- A successful lookup means the matched-row count of that predicate is
positive. -/
theorem countP_pos_of_findByEmail {db : Db} {e : String} {u : UserRecord}
    (h : findByEmail db e = some u) :
    0 < db.countP (fun r => r.email == e) := by
  refine List.countP_pos_iff.2 ⟨u, List.mem_of_find?_eq_some h, ?_⟩
  simpa using email_of_findByEmail h

/-- Lookup in an appended table skips a prefix holding no match. -/
theorem findByEmail_append_of_none {db1 : Db} {e : String}
    (h : findByEmail db1 e = none) (db2 : Db) :
    findByEmail (db1 ++ db2) e = findByEmail db2 e := by
  induction db1 with
  | nil => rfl
  | cons r rest ih =>
    unfold findByEmail at *
    simp only [List.cons_append, List.find?]
    by_cases hm : r.email == e
    · simp [List.find?, hm] at h
    · simp only [hm]
      exact ih (by simpa [List.find?, hm] using h)

/-- The reset-field invariant of the data model: `reset_token` present
iff `token_expires` present, on every row. -/
def resetInv (db : Db) : Prop :=
  ∀ r ∈ db, r.reset_token.isSome = r.token_expires.isSome

instance resetInv.dec (db : Db) : Decidable (resetInv db) := by
  unfold resetInv
  infer_instance

/-- An update whose result rows satisfy the reset-field invariant
preserves it. -/
theorem resetInv_updateWhere (q : UserRecord → Bool) (f : UserRecord → UserRecord)
    (db : Db) (hdb : resetInv db)
    (hf : ∀ r ∈ db, q r = true →
      (f r).reset_token.isSome = (f r).token_expires.isSome) :
    resetInv (updateWhere q f db) := by
  intro r hr
  rcases List.mem_map.1 hr with ⟨s, hs, rfl⟩
  by_cases hq : q s = true
  · simpa [hq] using hf s hs hq
  · simpa [hq] using hdb s hs

/-- Appending a row satisfying the reset-field invariant preserves it. -/
theorem resetInv_append_single (db : Db) (u : UserRecord) (hdb : resetInv db)
    (hu : u.reset_token.isSome = u.token_expires.isSome) :
    resetInv (db ++ [u]) := by
  intro r hr
  rcases List.mem_append.1 hr with h | h
  · exact hdb r h
  · rcases List.mem_singleton.1 h with rfl
    exact hu

/-! ### Shape of the table each route leaves behind -/

/-- Signup leaves the table unchanged or appends exactly the freshly
created password record. -/
theorem signup_db_shape (db : Db) (name email password : String) (newId now : Nat) :
    (signup db name email password newId now).2 = db ∨
    (signup db name email password newId now).2 =
      db ++ [⟨newId, name, email, some (bcryptHash password), false, none, none, now⟩] := by
  unfold signup signupWith insertUser
  split_ifs <;> simp

/-- Google sign-in leaves the table unchanged, appends the fresh
federated record, or rewrites name and federation flag of the rows
matching the email. -/
theorem googleSignin_db_shape (db : Db) (name email secret : String) (newId now : Nat) :
    (googleSignin db name email secret newId now).2 = db ∨
    (googleSignin db name email secret newId now).2 =
      db ++ [⟨newId, name, email, none, true, none, none, now⟩] ∨
    (googleSignin db name email secret newId now).2 =
      updateWhere (fun r => r.email == email)
        (fun r => { r with name := name, is_google := true }) db := by
  unfold googleSignin insertUser
  by_cases h0 : name = "" ∨ email = ""
  · simp [h0]
  rw [if_neg h0]
  cases hfe : findByEmail db email with
  | none => simp only [hfe]; split_ifs <;> simp
  | some u => simp [hfe]

/-- Forgot-password leaves the table unchanged or performs the single
update writing both reset fields on the rows matching the email. -/
theorem forgotPassword_db_shape (db : Db) (email secret : String) (now : Nat)
    (mailOk : Bool) :
    (forgotPassword db email secret now mailOk).2 = db ∨
    (forgotPassword db email secret now mailOk).2 =
      updateWhere (fun r => r.email == email)
        (fun r => { r with
          reset_token := some (jwtSign ⟨none, email⟩ secret (now + oneHourMs)),
          token_expires := some (now + oneHourMs) }) db := by
  unfold forgotPassword
  split_ifs <;> simp

/-- Reset-password leaves the table unchanged or performs the single
conditional update that installs the new hash and clears both reset
fields on the rows whose email and stored token match. -/
theorem resetPassword_db_shape (db : Db) (token : Option Jwt) (newPw secret : String)
    (now : Nat) :
    (resetPassword db token newPw secret now).2 = db ∨
    ∃ tok : Jwt, token = some tok ∧
      (resetPassword db token newPw secret now).2 =
        updateWhere (fun r => r.email == tok.claims.email && r.reset_token == some tok)
          (fun r => { r with password := some (bcryptHash newPw),
                             reset_token := none, token_expires := none }) db := by
  cases token with
  | none => exact Or.inl rfl
  | some tok =>
    by_cases hpw : newPw = ""
    · left; simp [resetPassword, hpw]
    cases hv : jwtVerify tok secret now with
    | none => left; simp [resetPassword, hpw, hv]
    | some decoded =>
      have hd : decoded = tok.claims := by
        unfold jwtVerify at hv
        split_ifs at hv with h
        exact (Option.some.inj hv).symm
      subst hd
      by_cases hm : affectedRows
          (fun r => r.email == tok.claims.email && r.reset_token == some tok) db = 0
      · left; simp [resetPassword, hpw, hv, hm]
      · right
        exact ⟨tok, rfl, by simp [resetPassword, hpw, hv, hm]⟩

/-- A reset that reports success performed exactly the conditional
update keyed on the token's subject email and the presented token. -/
theorem resetPassword_success_shape (db : Db) (tok : Jwt) (pw secret : String)
    (t : Nat) (h : (resetPassword db (some tok) pw secret t).1 = .success) :
    (resetPassword db (some tok) pw secret t).2 =
      updateWhere (fun r => r.email == tok.claims.email && r.reset_token == some tok)
        (fun r => { r with password := some (bcryptHash pw),
                           reset_token := none, token_expires := none }) db := by
  by_cases hpw : pw = ""
  · simp [resetPassword, hpw] at h
  cases hv : jwtVerify tok secret t with
  | none => simp [resetPassword, hpw, hv] at h
  | some decoded =>
    have hd : decoded = tok.claims := by
      unfold jwtVerify at hv
      split_ifs at hv with hc
      exact (Option.some.inj hv).symm
    subst hd
    by_cases hm : affectedRows
        (fun r => r.email == tok.claims.email && r.reset_token == some tok) db = 0
    · simp [resetPassword, hpw, hv, hm] at h
    · simp [resetPassword, hpw, hv, hm]

/-- When no row carries both the token's subject email and the token
itself, reset-password reports the invalid-or-expired error and leaves
the table unchanged. -/
theorem resetPassword_no_match (db : Db) (tok : Jwt) (pw secret : String)
    (t : Nat) (hpw : pw ≠ "")
    (hzero : affectedRows
      (fun r => r.email == tok.claims.email && r.reset_token == some tok) db = 0) :
    (resetPassword db (some tok) pw secret t).1 = .invalidOrExpired ∧
    (resetPassword db (some tok) pw secret t).2 = db := by
  cases hv : jwtVerify tok secret t with
  | none => simp [resetPassword, hpw, hv]
  | some decoded =>
    have hd : decoded = tok.claims := by
      unfold jwtVerify at hv
      split_ifs at hv with hc
      exact (Option.some.inj hv).symm
    subst hd
    simp [resetPassword, hpw, hv, hzero]

/-! ### Concrete fixtures -/

/-- A reset token the server would have issued for `a@x.com` at time 0. -/
def tok0 : Jwt := jwtSign ⟨none, "a@x.com"⟩ "s" 3600000

/-- A password account for `a@x.com` with a pending reset token. -/
def user0 : UserRecord :=
  ⟨1, "Ana", "a@x.com", some (bcryptHash "secret1"), false, some tok0, some 3600000, 0⟩

def db0 : Db := [user0]

/-- A federated (google-signin) account with no stored password. -/
def gUser : UserRecord := ⟨2, "Bo", "b@x.com", none, true, none, none, 0⟩

/-- A password account for `b@x.com`, as created by a concurrent signup. -/
def raceUser : UserRecord :=
  ⟨3, "Bob", "b@x.com", some (bcryptHash "other2"), false, none, none, 0⟩

/-- A plain password account for `a@x.com` with no pending reset. -/
def pwUser : UserRecord :=
  ⟨7, "Ana", "a@x.com", some (bcryptHash "secret1"), false, none, none, 0⟩

/-! ### Claim theorems -/

/-- C1: for every stored record with `is_google` true, login fails with
the federated-account-only rejection (HTTP 403, the use-Google-Sign-In
message) for every presented password and regardless of any stored
`passwordHash`; the result does not depend on the password, which is
never compared. -/
theorem login_federated_refused (db : Db) (email secret : String) (now : Nat)
    (u : UserRecord) (hfind : findByEmail db email = some u)
    (hg : u.is_google = true) :
    ∀ password, login db email password secret now = .federatedOnly ∧
      (login db email password secret now).status = 403 := by
  intro password
  unfold login
  rw [hfind]
  simp [hg, LoginResult.status]

theorem login_federated_refused_witness :
    login [gUser] "b@x.com" "pw" "s" 0 = .federatedOnly ∧
    (login [gUser] "b@x.com" "pw" "s" 0).status = 403 :=
  login_federated_refused [gUser] "b@x.com" "s" 0 gUser (by decide) (by decide) "pw"

/-- C3: when a record already exists for the email — whatever its kind,
password or federated — signup answers the duplicate-account conflict
(HTTP 409) and leaves the table untouched; it inserts only into the
no-record state. -/
theorem signup_duplicate_rejected (db : Db) (name email password : String)
    (newId now : Nat) (u : UserRecord)
    (hfind : findByEmail db email = some u)
    (h0 : ¬(name = "" ∨ email = "" ∨ password = ""))
    (hname : isAlphaStr (stripSpaces name) = true)
    (hemail : isEmail email = true)
    (hpw : ¬password.length < 6) :
    (signup db name email password newId now).1 = .duplicate ∧
    (signup db name email password newId now).1.status = 409 ∧
    (signup db name email password newId now).2 = db := by
  unfold signup signupWith
  rw [if_neg h0]
  simp [hname, hemail, hpw, hfind, SignupResult.status]

theorem signup_duplicate_rejected_witness :
    (signup [user0] "Bob" "a@x.com" "other2" 5 0).1 = .duplicate ∧
    (signup [user0] "Bob" "a@x.com" "other2" 5 0).1.status = 409 ∧
    (signup [user0] "Bob" "a@x.com" "other2" 5 0).2 = [user0] :=
  signup_duplicate_rejected [user0] "Bob" "a@x.com" "other2" 5 0 user0
    (by decide) (by decide) (by decide) (by decide) (by decide)

/-- C4: when the existence check ran against a table without the email
but the insert runs after a concurrent signup created it, the insert's
duplicate-key failure is reported as the generic 500 signup failure, not
as the 409 duplicate-account conflict the spec requires. -/
theorem signup_race_reports_generic_fault :
    (signupWith [] [raceUser] "Bob" "b@x.com" "secret1" 9 5).1 = .insertFailed ∧
    (signupWith [] [raceUser] "Bob" "b@x.com" "secret1" 9 5).2 = [raceUser] ∧
    SignupResult.insertFailed.status = 500 ∧
    SignupResult.insertFailed ≠ SignupResult.duplicate := by decide

/-- C7 counterexample: at a concrete successful login the returned user
projection is exactly the name and email fields — its key list is
["name", "email"], so it does not contain the id field the claim
asserts. -/
theorem login_projection_lacks_id :
    login [pwUser] "a@x.com" "secret1" "s" 0 =
      .success (jwtSign ⟨some 7, "a@x.com"⟩ "s" (0 + sevenDaysMs))
        [("name", "Ana"), ("email", "a@x.com")] ∧
    [("name", "Ana"), ("email", "a@x.com")].map Prod.fst = ["name", "email"] := by
  decide

/-- C7 (amended): a successful login returns the session token signed
over the user id and subject email with a seven-day ttl, together with a
user projection consisting of exactly the name and email fields (no id,
and never the password hash). -/
theorem login_success_response (db : Db) (email password secret : String)
    (now : Nat) (u : UserRecord) (hfind : findByEmail db email = some u)
    (hg : u.is_google = false)
    (hmatch : bcryptCompare password u.password = true) :
    login db email password secret now =
      .success (jwtSign ⟨some u.id, u.email⟩ secret (now + sevenDaysMs))
        [("name", u.name), ("email", u.email)] ∧
    sevenDaysMs = 7 * 24 * 60 * 60 * 1000 := by
  refine ⟨?_, rfl⟩
  unfold login
  rw [hfind]
  simp [hg, hmatch]

theorem login_success_response_witness :
    login [pwUser] "a@x.com" "secret1" "s" 0 =
      .success (jwtSign ⟨some pwUser.id, pwUser.email⟩ "s" (0 + sevenDaysMs))
        [("name", pwUser.name), ("email", pwUser.email)] ∧
    sevenDaysMs = 7 * 24 * 60 * 60 * 1000 :=
  login_success_response [pwUser] "a@x.com" "secret1" "s" 0 pwUser
    (by decide) (by decide) (by decide)

/-- C8: when the reset token was persisted by the update but the single
mail-send attempt fails, the route reports the distinct notification
failure (HTTP 500, "Email failed") and the persisted token stays on the
record — it is not rolled back. -/
theorem forgot_mail_failure_keeps_token (db : Db) (email secret : String)
    (now : Nat) (u : UserRecord) (hfind : findByEmail db email = some u)
    (hemail : isEmail email = true) :
    (forgotPassword db email secret now false).1 = .emailFailed ∧
    ForgotResult.emailFailed.status = 500 ∧
    findByEmail (forgotPassword db email secret now false).2 email =
      some { u with
        reset_token := some (jwtSign ⟨none, email⟩ secret (now + oneHourMs)),
        token_expires := some (now + oneHourMs) } := by
  have hpos : 0 < affectedRows (fun r => r.email == email) db :=
    countP_pos_of_findByEmail hfind
  have hne : affectedRows (fun r => r.email == email) db ≠ 0 :=
    Nat.pos_iff_ne_zero.mp hpos
  have hstep : forgotPassword db email secret now false =
      (.emailFailed, updateWhere (fun r => r.email == email)
        (fun r => { r with
          reset_token := some (jwtSign ⟨none, email⟩ secret (now + oneHourMs)),
          token_expires := some (now + oneHourMs) }) db) := by
    unfold forgotPassword
    rw [hemail]
    simp [hne]
  rw [hstep]
  refine ⟨rfl, rfl, ?_⟩
  show findByEmail (updateWhere (fun r => r.email == email)
    (fun r => { r with
      reset_token := some (jwtSign ⟨none, email⟩ secret (now + oneHourMs)),
      token_expires := some (now + oneHourMs) }) db) email = _
  rw [findByEmail_updateWhere (fun r => r.email == email)
    (fun r => { r with
      reset_token := some (jwtSign ⟨none, email⟩ secret (now + oneHourMs)),
      token_expires := some (now + oneHourMs) }) (fun r _ => rfl) db email, hfind]
  have hu : u.email == email := by simp [email_of_findByEmail hfind]
  simp [hu, email_of_findByEmail hfind]

theorem forgot_mail_failure_keeps_token_witness :
    (forgotPassword db0 "a@x.com" "s" 7 false).1 = .emailFailed ∧
    ForgotResult.emailFailed.status = 500 ∧
    findByEmail (forgotPassword db0 "a@x.com" "s" 7 false).2 "a@x.com" =
      some { user0 with
        reset_token := some (jwtSign ⟨none, "a@x.com"⟩ "s" (7 + oneHourMs)),
        token_expires := some (7 + oneHourMs) } :=
  forgot_mail_failure_keeps_token db0 "a@x.com" "s" 7 user0 (by decide) (by decide)

/-- C9: a signup whose email fails the address grammar or whose password
is shorter than six characters is rejected by a local validation error
(HTTP 400) before any storage access: the table is unchanged and the
outcome is the same whatever table the server holds. -/
theorem signup_validation_local (name email password : String)
    (h : isEmail email = false ∨ password.length < 6) :
    ∀ db db' newId now,
      (signup db name email password newId now).1.isValidation = true ∧
      (signup db name email password newId now).1.status = 400 ∧
      (signup db name email password newId now).2 = db ∧
      (signup db name email password newId now).1
        = (signup db' name email password newId now).1 := by
  intro db db' newId now
  unfold signup signupWith
  by_cases h0 : name = "" ∨ email = "" ∨ password = ""
  · simp [h0, SignupResult.isValidation, SignupResult.status]
  rw [if_neg h0, if_neg h0]
  by_cases h1 : isAlphaStr (stripSpaces name) = true
  · rcases h with he | hp
    · simp [h1, he, SignupResult.isValidation, SignupResult.status]
    · by_cases he2 : isEmail email = true
      · simp [h1, he2, hp, SignupResult.isValidation, SignupResult.status]
      · simp [h1, he2, SignupResult.isValidation, SignupResult.status]
  · simp [h1, SignupResult.isValidation, SignupResult.status]

theorem signup_validation_local_witness :
    (signup [user0] "Ana" "ax.com" "secret1" 5 0).1.isValidation = true ∧
    (signup [user0] "Ana" "ax.com" "secret1" 5 0).1.status = 400 ∧
    (signup [user0] "Ana" "ax.com" "secret1" 5 0).2 = [user0] ∧
    (signup [user0] "Ana" "ax.com" "secret1" 5 0).1
      = (signup [] "Ana" "ax.com" "secret1" 5 0).1 :=
  signup_validation_local "Ana" "ax.com" "secret1" (Or.inl (by decide)) [user0] [] 5 0

/-- C5: every operation preserves the invariant that `reset_token` and
`token_expires` are present together; forgot-password writes both fields
in its one update, and reset-password installs the new hash and clears
both fields in its one conditional update (every changed row shows
exactly that combined effect). -/
theorem reset_fields_invariant (db : Db) (hinv : resetInv db) :
    (∀ name email password newId now,
      resetInv (signup db name email password newId now).2) ∧
    (∀ name email secret newId now,
      resetInv (googleSignin db name email secret newId now).2) ∧
    (∀ email secret now mailOk,
      resetInv (forgotPassword db email secret now mailOk).2) ∧
    (∀ token newPw secret now,
      resetInv (resetPassword db token newPw secret now).2) ∧
    (∀ email secret now mailOk,
      ∀ r ∈ (forgotPassword db email secret now mailOk).2,
        r ∈ db ∨
        (r.reset_token = some (jwtSign ⟨none, email⟩ secret (now + oneHourMs)) ∧
         r.token_expires = some (now + oneHourMs))) ∧
    (∀ tok newPw secret now,
      ∀ r ∈ (resetPassword db (some tok) newPw secret now).2,
        r ∈ db ∨
        (r.password = some (bcryptHash newPw) ∧ r.reset_token = none ∧
         r.token_expires = none)) := by
  refine ⟨?_, ?_, ?_, ?_, ?_, ?_⟩
  · intro name email password newId now
    rcases signup_db_shape db name email password newId now with h | h <;> rw [h]
    · exact hinv
    · exact resetInv_append_single db _ hinv rfl
  · intro name email secret newId now
    rcases googleSignin_db_shape db name email secret newId now with h | h | h <;> rw [h]
    · exact hinv
    · exact resetInv_append_single db _ hinv rfl
    · exact resetInv_updateWhere _ _ db hinv (fun r hr _ => hinv r hr)
  · intro email secret now mailOk
    rcases forgotPassword_db_shape db email secret now mailOk with h | h <;> rw [h]
    · exact hinv
    · exact resetInv_updateWhere _ _ db hinv (fun r _ _ => rfl)
  · intro token newPw secret now
    rcases resetPassword_db_shape db token newPw secret now with h | ⟨tok, _, h⟩ <;> rw [h]
    · exact hinv
    · exact resetInv_updateWhere _ _ db hinv (fun r _ _ => rfl)
  · intro email secret now mailOk r hr
    rcases forgotPassword_db_shape db email secret now mailOk with h | h
    · rw [h] at hr; exact Or.inl hr
    · rw [h] at hr
      rcases List.mem_map.1 hr with ⟨s, hs, rfl⟩
      by_cases hq : (s.email == email) = true
      · right; simp [hq]
      · left; simpa [hq] using hs
  · intro tok newPw secret now r hr
    rcases resetPassword_db_shape db (some tok) newPw secret now with h | ⟨tok2, htok2, h⟩
    · rw [h] at hr; exact Or.inl hr
    · obtain rfl : tok = tok2 := by injection htok2
      rw [h] at hr
      rcases List.mem_map.1 hr with ⟨s, hs, rfl⟩
      by_cases hq : (s.email == tok.claims.email && s.reset_token == some tok) = true
      · right; simp [hq]
      · left; simpa [hq] using hs

theorem reset_fields_invariant_witness :
    resetInv (forgotPassword db0 "a@x.com" "s" 7 false).2 :=
  (reset_fields_invariant db0 (by decide)).2.2.1 "a@x.com" "s" 7 false

/-- C6: google sign-in is an upsert that never rejects an existing
record: with no record for the email it inserts a federated record with
no password; with an existing record — whatever it holds — it rewrites
only the display name and federation flag, keeping the stored password
hash; both paths answer with a session token. -/
theorem googleSignin_upsert (db : Db) (name email secret : String) (newId now : Nat)
    (hn : name ≠ "") (he : email ≠ "") :
    (findByEmail db email = none →
      googleSignin db name email secret newId now =
        (.created (jwtSign ⟨none, email⟩ secret (now + sevenDaysMs))
           [("name", name), ("email", email)],
         db ++ [⟨newId, name, email, none, true, none, none, now⟩]) ∧
      findByEmail (googleSignin db name email secret newId now).2 email =
        some ⟨newId, name, email, none, true, none, none, now⟩) ∧
    (∀ u, findByEmail db email = some u →
      (googleSignin db name email secret newId now).1 =
        .updated (jwtSign ⟨none, email⟩ secret (now + sevenDaysMs))
          [("name", name), ("email", email)] ∧
      findByEmail (googleSignin db name email secret newId now).2 email =
        some { u with name := name, is_google := true }) := by
  have h0 : ¬(name = "" ∨ email = "") := by
    rintro (h | h) <;> [exact hn h; exact he h]
  constructor
  · intro hfe
    have hins : insertUser db ⟨newId, name, email, none, true, none, none, now⟩ =
        some (db ++ [⟨newId, name, email, none, true, none, none, now⟩]) := by
      unfold insertUser
      have : db.any (fun r => r.email == email) = false := by
        rw [List.any_eq_false]
        intro r hr
        have := List.find?_eq_none.mp hfe r hr
        simpa using this
      simp [this]
    have hstep : googleSignin db name email secret newId now =
        (.created (jwtSign ⟨none, email⟩ secret (now + sevenDaysMs))
           [("name", name), ("email", email)],
         db ++ [⟨newId, name, email, none, true, none, none, now⟩]) := by
      unfold googleSignin
      rw [if_neg h0, hfe, hins]
    refine ⟨hstep, ?_⟩
    rw [hstep]
    show findByEmail (db ++ [⟨newId, name, email, none, true, none, none, now⟩]) email = _
    rw [findByEmail_append_of_none hfe]
    simp [findByEmail, List.find?]
  · intro u hfe
    have hstep : googleSignin db name email secret newId now =
        (.updated (jwtSign ⟨none, email⟩ secret (now + sevenDaysMs))
           [("name", name), ("email", email)],
         updateWhere (fun r => r.email == email)
           (fun r => { r with name := name, is_google := true }) db) := by
      unfold googleSignin
      rw [if_neg h0, hfe]
    rw [hstep]
    refine ⟨rfl, ?_⟩
    show findByEmail (updateWhere (fun r => r.email == email)
      (fun r => { r with name := name, is_google := true }) db) email = _
    rw [findByEmail_updateWhere (fun r => r.email == email)
      (fun r => { r with name := name, is_google := true }) (fun r _ => rfl) db email, hfe]
    have hu : u.email == email := by simp [email_of_findByEmail hfe]
    simp [hu, email_of_findByEmail hfe]

theorem googleSignin_upsert_witness :
    ((googleSignin [pwUser] "Anna" "a@x.com" "s" 9 3).1 =
      .updated (jwtSign ⟨none, "a@x.com"⟩ "s" (3 + sevenDaysMs))
        [("name", "Anna"), ("email", "a@x.com")] ∧
     findByEmail (googleSignin [pwUser] "Anna" "a@x.com" "s" 9 3).2 "a@x.com" =
       some { pwUser with name := "Anna", is_google := true }) :=
  (googleSignin_upsert [pwUser] "Anna" "a@x.com" "s" 9 3 (by decide) (by decide)).2
    pwUser (by decide)

/-- C2: a reset token succeeds at most once.  After a first successful
completion, presenting the same token again fails with the collapsed
invalid-or-expired error and leaves the table unchanged; likewise after
a newer reset request replaced the stored token for that email, the old
token fails and changes nothing — success requires the stored
`reset_token` to equal the presented one. -/
theorem resetPassword_single_use (db : Db) (tok : Jwt) (pw1 pw2 secret : String)
    (t1 t2 : Nat) (hpw2 : pw2 ≠ "")
    (hfirst : (resetPassword db (some tok) pw1 secret t1).1 = .success) :
    ((resetPassword (resetPassword db (some tok) pw1 secret t1).2
        (some tok) pw2 secret t2).1 = .invalidOrExpired ∧
     (resetPassword (resetPassword db (some tok) pw1 secret t1).2
        (some tok) pw2 secret t2).2 = (resetPassword db (some tok) pw1 secret t1).2) ∧
    (∀ (email : String) (t0 : Nat) (mailOk : Bool),
      tok.claims.email = email →
      tok ≠ jwtSign ⟨none, email⟩ secret (t0 + oneHourMs) →
      isEmail email = true →
      (resetPassword (forgotPassword db email secret t0 mailOk).2
          (some tok) pw2 secret t2).1 = .invalidOrExpired ∧
      (resetPassword (forgotPassword db email secret t0 mailOk).2
          (some tok) pw2 secret t2).2 = (forgotPassword db email secret t0 mailOk).2) := by
  constructor
  · have hshape := resetPassword_success_shape db tok pw1 secret t1 hfirst
    have hzero : affectedRows
        (fun r => r.email == tok.claims.email && r.reset_token == some tok)
        (resetPassword db (some tok) pw1 secret t1).2 = 0 := by
      rw [hshape]
      exact countP_updateWhere_zero _ _ _ db (fun r h => h) (fun r _ => by simp)
    exact resetPassword_no_match _ tok pw2 secret t2 hpw2 hzero
  · intro email t0 mailOk hsub hne hemail
    subst hsub
    by_cases h0 : affectedRows (fun r => r.email == tok.claims.email) db = 0
    · have hdb2 : (forgotPassword db tok.claims.email secret t0 mailOk).2 = db := by
        unfold forgotPassword
        rw [hemail]
        simp [h0]
      have hzero : affectedRows
          (fun r => r.email == tok.claims.email && r.reset_token == some tok) db = 0 := by
        unfold affectedRows
        rw [List.countP_eq_zero]
        intro r hr hcontra
        rw [Bool.and_eq_true] at hcontra
        exact (List.countP_eq_zero.mp h0) r hr hcontra.1
      rw [hdb2]
      exact resetPassword_no_match db tok pw2 secret t2 hpw2 hzero
    · have hdb2 : (forgotPassword db tok.claims.email secret t0 mailOk).2 =
          updateWhere (fun r => r.email == tok.claims.email)
            (fun r => { r with
              reset_token := some (jwtSign ⟨none, tok.claims.email⟩ secret (t0 + oneHourMs)),
              token_expires := some (t0 + oneHourMs) }) db := by
        unfold forgotPassword
        rw [hemail]
        by_cases hm : mailOk <;> simp [h0, hm]
      have hzero : affectedRows
          (fun r => r.email == tok.claims.email && r.reset_token == some tok)
          (forgotPassword db tok.claims.email secret t0 mailOk).2 = 0 := by
        rw [hdb2]
        refine countP_updateWhere_zero _ _ _ db (fun r h => ?_) (fun r _ => ?_)
        · simp only [Bool.and_eq_false_iff]
          exact Or.inl h
        · simp only [Bool.and_eq_false_iff]
          right
          simp [Ne.symm hne]
      exact resetPassword_no_match _ tok pw2 secret t2 hpw2 hzero

theorem resetPassword_single_use_witness :
    (resetPassword (resetPassword db0 (some tok0) "newpass1" "s" 10).2
        (some tok0) "again1" "s" 20).1 = ResetResult.invalidOrExpired :=
  ((resetPassword_single_use db0 tok0 "newpass1" "again1" "s" 10 20
    (by decide) (by decide)).1).1

/-- C10: a federated account can run the whole password-reset flow —
forgot-password persists a token on it (the update is not conditioned on
`is_google`) and reset-password then installs a password hash on it —
yet password login still answers the federated-only rejection, so the
new password is unusable for login. -/
theorem federated_account_reset_flow (db : Db) (email newPw secret : String)
    (t0 t1 : Nat) (u : UserRecord)
    (hfind : findByEmail db email = some u) (hg : u.is_google = true)
    (hemail : isEmail email = true) (hpw : newPw ≠ "")
    (ht : t1 < t0 + oneHourMs) :
    (forgotPassword db email secret t0 true).1 = .sent ∧
    (resetPassword (forgotPassword db email secret t0 true).2
        (some (jwtSign ⟨none, email⟩ secret (t0 + oneHourMs))) newPw secret t1).1
      = .success ∧
    findByEmail (resetPassword (forgotPassword db email secret t0 true).2
        (some (jwtSign ⟨none, email⟩ secret (t0 + oneHourMs))) newPw secret t1).2 email
      = some { u with password := some (bcryptHash newPw),
                      reset_token := none, token_expires := none } ∧
    (∀ password now,
      login (resetPassword (forgotPassword db email secret t0 true).2
          (some (jwtSign ⟨none, email⟩ secret (t0 + oneHourMs))) newPw secret t1).2
        email password secret now = .federatedOnly) := by
  have hmail : u.email == email := by simp [email_of_findByEmail hfind]
  have hne0 : affectedRows (fun r => r.email == email) db ≠ 0 :=
    Nat.pos_iff_ne_zero.mp (countP_pos_of_findByEmail hfind)
  have hstep1 : forgotPassword db email secret t0 true =
      (.sent, updateWhere (fun r => r.email == email)
        (fun r => { r with
          reset_token := some (jwtSign ⟨none, email⟩ secret (t0 + oneHourMs)),
          token_expires := some (t0 + oneHourMs) }) db) := by
    unfold forgotPassword
    rw [hemail]
    simp [hne0]
  have hfind1 : findByEmail (forgotPassword db email secret t0 true).2 email =
      some { u with
        reset_token := some (jwtSign ⟨none, email⟩ secret (t0 + oneHourMs)),
        token_expires := some (t0 + oneHourMs) } := by
    rw [hstep1]
    show findByEmail (updateWhere (fun r => r.email == email)
      (fun r => { r with
        reset_token := some (jwtSign ⟨none, email⟩ secret (t0 + oneHourMs)),
        token_expires := some (t0 + oneHourMs) }) db) email = _
    rw [findByEmail_updateWhere (fun r => r.email == email)
      (fun r => { r with
        reset_token := some (jwtSign ⟨none, email⟩ secret (t0 + oneHourMs)),
        token_expires := some (t0 + oneHourMs) }) (fun r _ => rfl) db email, hfind]
    simp [hmail, email_of_findByEmail hfind]
  have hv : jwtVerify (jwtSign ⟨none, email⟩ secret (t0 + oneHourMs)) secret t1 =
      some ⟨none, email⟩ := by
    unfold jwtVerify jwtSign
    rw [if_pos ⟨rfl, ht⟩]
  have hnz : affectedRows (fun r => r.email == email &&
      r.reset_token == some (jwtSign ⟨none, email⟩ secret (t0 + oneHourMs)))
      (forgotPassword db email secret t0 true).2 ≠ 0 := by
    refine Nat.pos_iff_ne_zero.mp (List.countP_pos_iff.2 ⟨{ u with
      reset_token := some (jwtSign ⟨none, email⟩ secret (t0 + oneHourMs)),
      token_expires := some (t0 + oneHourMs) }, ?_, ?_⟩)
    · rw [hstep1]
      refine List.mem_map.2 ⟨u, List.mem_of_find?_eq_some hfind, ?_⟩
      simp [hmail]
    · simp [hmail]
  have hstep2 : resetPassword (forgotPassword db email secret t0 true).2
      (some (jwtSign ⟨none, email⟩ secret (t0 + oneHourMs))) newPw secret t1 =
      (.success, updateWhere (fun r => r.email == email &&
          r.reset_token == some (jwtSign ⟨none, email⟩ secret (t0 + oneHourMs)))
        (fun r => { r with password := some (bcryptHash newPw),
                           reset_token := none, token_expires := none })
        (forgotPassword db email secret t0 true).2) := by
    simp only [resetPassword, hpw, if_neg hpw, hv]
    rw [if_neg hnz]
    simp
  have hfind2 : findByEmail (resetPassword (forgotPassword db email secret t0 true).2
      (some (jwtSign ⟨none, email⟩ secret (t0 + oneHourMs))) newPw secret t1).2 email =
      some { u with password := some (bcryptHash newPw),
                    reset_token := none, token_expires := none } := by
    rw [hstep2]
    show findByEmail (updateWhere (fun r => r.email == email &&
        r.reset_token == some (jwtSign ⟨none, email⟩ secret (t0 + oneHourMs)))
      (fun r => { r with password := some (bcryptHash newPw),
                         reset_token := none, token_expires := none })
      (forgotPassword db email secret t0 true).2) email = _
    rw [findByEmail_updateWhere (fun r => r.email == email &&
        r.reset_token == some (jwtSign ⟨none, email⟩ secret (t0 + oneHourMs)))
      (fun r => { r with password := some (bcryptHash newPw),
                         reset_token := none, token_expires := none })
      (fun r _ => rfl) (forgotPassword db email secret t0 true).2 email, hfind1]
    simp [hmail, email_of_findByEmail hfind]
  refine ⟨by rw [hstep1], by rw [hstep2], hfind2, ?_⟩
  intro password now
  unfold login
  rw [hfind2]
  simp [hg]

theorem federated_account_reset_flow_witness :
    login (resetPassword (forgotPassword [gUser] "b@x.com" "s" 0 true).2
        (some (jwtSign ⟨none, "b@x.com"⟩ "s" (0 + oneHourMs))) "newpass1" "s" 10).2
      "b@x.com" "newpass1" "s" 50 = LoginResult.federatedOnly :=
  (federated_account_reset_flow [gUser] "b@x.com" "newpass1" "s" 0 10 gUser
    (by decide) (by decide) (by decide) (by decide) (by decide)).2.2.2 "newpass1" 50

end NotesAuth
